import Mathlib

/-!
Verification of the rustfs replication crate (status model, resync
coordinator persistence, MRF retry ledger) against its specification.

The Rust sources are shallowly embedded: pure functions become Lean
functions, the resync coordinator's shared state (in-memory status map
plus the durable store) becomes explicit state passing, `OffsetDateTime`
becomes a logical clock `Nat`, Rust `HashMap` becomes an association
list (the composite-status derivation is order independent, and the map
operations used — get, insert-or-update — are modelled exactly).
-/

/-! ## Association-list model of HashMap (get / insert-or-update) -/

/-- Lookup of the first binding of a key, as `HashMap::get`. -/
def mapGet {α : Type} (m : List (String × α)) (k : String) : Option α :=
  match m with
  | [] => none
  | (k2, v) :: rest => if k2 = k then some v else mapGet rest k

/-- Insert-or-update of a key, as `HashMap::insert` (replaces the binding
when the key is present, appends otherwise). -/
def mapSet {α : Type} (m : List (String × α)) (k : String) (v : α) : List (String × α) :=
  match m with
  | [] => [(k, v)]
  | (k2, v2) :: rest => if k2 = k then (k2, v) :: rest else (k2, v2) :: mapSet rest k v

/-! ## Status model (src/crates/replication/src/types.rs) -/

/-- `StatusType` of replication, from types.rs. -/
inductive StatusType where
  | Pending
  | Completed
  | CompletedLegacy
  | Failed
  | Replica
  | Empty
deriving DecidableEq, Repr

/-- `impl From<&str> for StatusType`, from types.rs. -/
def StatusType.fromStr (s : String) : StatusType :=
  match s with
  | "PENDING" => StatusType.Pending
  | "COMPLETED" => StatusType.Completed
  | "COMPLETE" => StatusType.CompletedLegacy
  | "FAILED" => StatusType.Failed
  | "REPLICA" => StatusType.Replica
  | _ => StatusType.Empty

/-- `VersionPurgeStatusType`, from types.rs. -/
inductive VersionPurgeStatusType where
  | Pending
  | Complete
  | Failed
  | Empty
deriving DecidableEq, Repr

/-- `impl From<&str> for VersionPurgeStatusType`, from types.rs. -/
def VersionPurgeStatusType.fromStr (s : String) : VersionPurgeStatusType :=
  match s with
  | "PENDING" => VersionPurgeStatusType.Pending
  | "COMPLETE" => VersionPurgeStatusType.Complete
  | "FAILED" => VersionPurgeStatusType.Failed
  | _ => VersionPurgeStatusType.Empty

/-- The `for status in targets.values()` loop of
`get_composite_replication_status`: returns Failed on the first Failed
value, otherwise counts Completed values and compares with the map size. -/
def replCompositeLoop : List StatusType → Nat → Nat → StatusType
  | [], completed, total => if completed = total then StatusType.Completed else StatusType.Pending
  | s :: rest, completed, total =>
    match s with
    | StatusType.Failed => StatusType.Failed
    | StatusType.Completed => replCompositeLoop rest (completed + 1) total
    | _ => replCompositeLoop rest completed total

/-- `get_composite_replication_status`, from types.rs lines 357-376. -/
def get_composite_replication_status (targets : List (String × StatusType)) : StatusType :=
  if targets.isEmpty then StatusType.Empty
  else replCompositeLoop (targets.map Prod.snd) 0 targets.length

/-- The value loop of `get_composite_version_purge_status`. -/
def purgeCompositeLoop : List VersionPurgeStatusType → Nat → Nat → VersionPurgeStatusType
  | [], completed, total => if completed = total then VersionPurgeStatusType.Complete else VersionPurgeStatusType.Pending
  | s :: rest, completed, total =>
    match s with
    | VersionPurgeStatusType.Failed => VersionPurgeStatusType.Failed
    | VersionPurgeStatusType.Complete => purgeCompositeLoop rest (completed + 1) total
    | _ => purgeCompositeLoop rest completed total

/-- `get_composite_version_purge_status`, from types.rs lines 378-397
(`VersionPurgeStatusType::default()` is `Empty`). -/
def get_composite_version_purge_status (targets : List (String × VersionPurgeStatusType)) : VersionPurgeStatusType :=
  if targets.isEmpty then VersionPurgeStatusType.Empty
  else purgeCompositeLoop (targets.map Prod.snd) 0 targets.length

/-- `ReplicationState`, from types.rs (timestamps as a logical clock `Nat`). -/
structure ReplicationState where
  replica_timestamp : Option Nat
  replica_status : StatusType
  delete_marker : Bool
  replication_timestamp : Option Nat
  replication_status_internal : String
  version_purge_status_internal : String
  replicate_decision_str : String
  targets : List (String × StatusType)
  purge_targets : List (String × VersionPurgeStatusType)
  reset_statuses_map : List (String × String)
deriving DecidableEq, Repr

/-- `ReplicationState::composite_replication_status`, from types.rs lines
167-198.  `StatusType::default()` is `Empty`. -/
def ReplicationState.composite_replication_status (s : ReplicationState) : StatusType :=
  if ¬s.replication_status_internal.isEmpty then
    match StatusType.fromStr s.replication_status_internal with
    | StatusType.Pending | StatusType.Completed | StatusType.Failed | StatusType.Replica =>
      StatusType.fromStr s.replication_status_internal
    | _ =>
      let repl_status := get_composite_replication_status s.targets
      if s.replica_timestamp.isNone then repl_status
      else if repl_status = StatusType.Completed then
        match s.replica_timestamp, s.replication_timestamp with
        | some replica_timestamp, some replication_timestamp =>
          if replica_timestamp > replication_timestamp then s.replica_status else repl_status
        | _, _ => repl_status
      else repl_status
  else if s.replica_status ≠ StatusType.Empty then s.replica_status
  else StatusType.Empty

/-- `ReplicationState::composite_version_purge_status`, from types.rs
lines 201-208. -/
def ReplicationState.composite_version_purge_status (s : ReplicationState) : VersionPurgeStatusType :=
  match VersionPurgeStatusType.fromStr s.version_purge_status_internal with
  | VersionPurgeStatusType.Pending | VersionPurgeStatusType.Complete | VersionPurgeStatusType.Failed =>
    VersionPurgeStatusType.fromStr s.version_purge_status_internal
  | _ => get_composite_version_purge_status s.purge_targets

/-- The claim C2 behaviour, as amended: written from the amended claim's
words, to be compared with the source function.  A non-empty internal
string parsing to one of the four recognised kinds is returned verbatim;
a non-empty internal string parsing otherwise yields the composite of
the per-target map, except that a Completed composite is replaced by
`replica_status` when both timestamps are present and the replica one is
strictly later; an empty internal string yields `replica_status`. -/
def compositeReplicationStatusSpec (s : ReplicationState) : StatusType :=
  if s.replication_status_internal.isEmpty then s.replica_status
  else
    let parsed := StatusType.fromStr s.replication_status_internal
    if parsed = StatusType.Pending ∨ parsed = StatusType.Completed ∨
        parsed = StatusType.Failed ∨ parsed = StatusType.Replica then parsed
    else
      let derived := get_composite_replication_status s.targets
      match s.replica_timestamp, s.replication_timestamp with
      | some a, some b => if derived = StatusType.Completed ∧ b < a then s.replica_status else derived
      | _, _ => derived

/-- Concrete state for claim C2: empty internal status string, one
Completed target, default `replica_status`. -/
def c2State : ReplicationState :=
  { replica_timestamp := none
    replica_status := StatusType.Empty
    delete_marker := false
    replication_timestamp := none
    replication_status_internal := ""
    version_purge_status_internal := ""
    replicate_decision_str := ""
    targets := [("arn1", StatusType.Completed)]
    purge_targets := []
    reset_statuses_map := [] }

/-! ## Resync status model (src/crates/replication/src/resyncer.rs) -/

/-- `ResyncStatusType`, from resyncer.rs (`default` is `NoResync`). -/
inductive ResyncStatusType where
  | NoResync
  | ResyncPending
  | ResyncCanceled
  | ResyncStarted
  | ResyncCompleted
  | ResyncFailed
deriving DecidableEq, Repr

/-- `TargetReplicationResyncStatus`, from resyncer.rs lines 65-79
(timestamps as a logical clock `Nat`, i64 counters as `Int`). -/
structure TargetReplicationResyncStatus where
  start_time : Option Nat
  last_update : Option Nat
  resync_id : String
  resync_before_date : Option Nat
  resync_status : ResyncStatusType
  failed_size : Int
  failed_count : Int
  replicated_size : Int
  replicated_count : Int
  bucket : String
  object : String
  error : Option String
deriving DecidableEq, Repr

/-- `TargetReplicationResyncStatus::new` (the `Default` value). -/
def TargetReplicationResyncStatus.new : TargetReplicationResyncStatus :=
  { start_time := none
    last_update := none
    resync_id := ""
    resync_before_date := none
    resync_status := ResyncStatusType.NoResync
    failed_size := 0
    failed_count := 0
    replicated_size := 0
    replicated_count := 0
    bucket := ""
    object := ""
    error := none }

/-- `BucketReplicationResyncStatus`, from resyncer.rs lines 87-93. -/
structure BucketReplicationResyncStatus where
  version : Nat
  targets_map : List (String × TargetReplicationResyncStatus)
  id : Int
  last_update : Option Nat
deriving DecidableEq, Repr

/-- `RESYNC_META_FORMAT`, from resyncer.rs line 23. -/
def RESYNC_META_FORMAT : Nat := 1

/-- `RESYNC_META_VERSION`, from resyncer.rs line 24. -/
def RESYNC_META_VERSION : Nat := 1

/-- `REPLICATION_DIR`, from resyncer.rs line 21. -/
def REPLICATION_DIR : String := ".replication"

/-- `RESYNC_FILE_NAME`, from resyncer.rs line 22. -/
def RESYNC_FILE_NAME : String := "resync.bin"

/-- `BucketReplicationResyncStatus::new`: version set to
`RESYNC_META_VERSION`, everything else default. -/
def BucketReplicationResyncStatus.new : BucketReplicationResyncStatus :=
  { version := RESYNC_META_VERSION
    targets_map := []
    id := 0
    last_update := none }

/-! ### Durable blob encoding

`marshal_msg`/`unmarshal_msg` delegate to the external `rmp_serde`
crate (MessagePack).  That crate is not part of this repository, so the
body encoding is modelled from the spec as an executable self-describing
encoding with a matching decoder; the 4 header bytes written around it by
`save_resync_status` are modelled exactly. -/

/-- Unary length encoding of a natural number (body-encoding primitive). -/
def encNat (n : Nat) : List Nat :=
  List.replicate n 0 ++ [1]

/-- Decoder matching `encNat`. -/
def decNat : List Nat → Option (Nat × List Nat)
  | 0 :: rest =>
    match decNat rest with
    | some (n, r) => some (n + 1, r)
    | none => none
  | 1 :: rest => some (0, rest)
  | _ => none

/-- Signed integer as the difference of two naturals. -/
def encInt (i : Int) : List Nat :=
  encNat i.toNat ++ encNat (-i).toNat

/-- Decoder matching `encInt`. -/
def decInt (l : List Nat) : Option (Int × List Nat) := do
  let (a, r) ← decNat l
  let (b, r2) ← decNat r
  some ((a : Int) - (b : Int), r2)

/-- String as length plus character codes. -/
def encStr (s : String) : List Nat :=
  encNat s.data.length ++ s.data.map Char.toNat

/-- Reads exactly `n` leading elements. -/
def decChunk : Nat → List Nat → Option (List Nat × List Nat)
  | 0, l => some ([], l)
  | _ + 1, [] => none
  | n + 1, b :: rest =>
    match decChunk n rest with
    | some (bs, r) => some (b :: bs, r)
    | none => none

/-- Decoder matching `encStr`. -/
def decStr (l : List Nat) : Option (String × List Nat) := do
  let (n, r) ← decNat l
  let (bs, r2) ← decChunk n r
  some (String.mk (bs.map Char.ofNat), r2)

/-- Optional value with a presence tag. -/
def encOpt {α : Type} (enc : α → List Nat) : Option α → List Nat
  | none => [0]
  | some a => 1 :: enc a

/-- Decoder matching `encOpt`. -/
def decOpt {α : Type} (dec : List Nat → Option (α × List Nat)) : List Nat → Option (Option α × List Nat)
  | 0 :: r => some (none, r)
  | 1 :: r =>
    match dec r with
    | some (a, r2) => some (some a, r2)
    | none => none
  | _ => none

/-- Tag of a `ResyncStatusType`. -/
def ResyncStatusType.toTag : ResyncStatusType → Nat
  | ResyncStatusType.NoResync => 0
  | ResyncStatusType.ResyncPending => 1
  | ResyncStatusType.ResyncCanceled => 2
  | ResyncStatusType.ResyncStarted => 3
  | ResyncStatusType.ResyncCompleted => 4
  | ResyncStatusType.ResyncFailed => 5

/-- Inverse of `ResyncStatusType.toTag`. -/
def ResyncStatusType.ofTag : Nat → Option ResyncStatusType
  | 0 => some ResyncStatusType.NoResync
  | 1 => some ResyncStatusType.ResyncPending
  | 2 => some ResyncStatusType.ResyncCanceled
  | 3 => some ResyncStatusType.ResyncStarted
  | 4 => some ResyncStatusType.ResyncCompleted
  | 5 => some ResyncStatusType.ResyncFailed
  | _ => none

/-- Body encoding of one `TargetReplicationResyncStatus` record. -/
def encTarget (t : TargetReplicationResyncStatus) : List Nat :=
  encOpt encNat t.start_time ++ encOpt encNat t.last_update ++
  encStr t.resync_id ++ encOpt encNat t.resync_before_date ++
  [t.resync_status.toTag] ++
  encInt t.failed_size ++ encInt t.failed_count ++
  encInt t.replicated_size ++ encInt t.replicated_count ++
  encStr t.bucket ++ encStr t.object ++ encOpt encStr t.error

/-- Decoder matching `encTarget`. -/
def decTarget (l : List Nat) : Option (TargetReplicationResyncStatus × List Nat) := do
  let (st, r1) ← decOpt decNat l
  let (lu, r2) ← decOpt decNat r1
  let (rid, r3) ← decStr r2
  let (rbd, r4) ← decOpt decNat r3
  match r4 with
  | [] => none
  | tag :: r5 =>
    match ResyncStatusType.ofTag tag with
    | none => none
    | some rst => do
      let (fs, r6) ← decInt r5
      let (fc, r7) ← decInt r6
      let (rs, r8) ← decInt r7
      let (rc, r9) ← decInt r8
      let (bk, r10) ← decStr r9
      let (ob, r11) ← decStr r10
      let (er, r12) ← decOpt decStr r11
      some ({ start_time := st, last_update := lu, resync_id := rid,
              resync_before_date := rbd, resync_status := rst,
              failed_size := fs, failed_count := fc,
              replicated_size := rs, replicated_count := rc,
              bucket := bk, object := ob, error := er }, r12)

/-- Body encoding of the targets map. -/
def encTargetsMap : List (String × TargetReplicationResyncStatus) → List Nat
  | [] => []
  | (k, v) :: rest => encStr k ++ encTarget v ++ encTargetsMap rest

/-- Count-indexed decoder matching `encTargetsMap`. -/
def decTargetsMap : Nat → List Nat → Option (List (String × TargetReplicationResyncStatus) × List Nat)
  | 0, l => some ([], l)
  | n + 1, l => do
    let (k, r1) ← decStr l
    let (v, r2) ← decTarget r1
    let (rest, r3) ← decTargetsMap n r2
    some ((k, v) :: rest, r3)

/-- Modelled from the spec: the self-describing binary (MessagePack)
body encoding produced by `rmp_serde::to_vec` in
`BucketReplicationResyncStatus::marshal_msg`.  `rmp_serde` is an
external crate, so the body is modelled as an executable injective
encoding of the full structure. -/
def marshal_msg (st : BucketReplicationResyncStatus) : List Nat :=
  encNat st.version ++ encNat st.targets_map.length ++
  encTargetsMap st.targets_map ++ encInt st.id ++
  encOpt encNat st.last_update

/-- Modelled from the spec: the body decoder used by
`BucketReplicationResyncStatus::unmarshal_msg` (external
`rmp_serde::from_slice`), matching `marshal_msg`. -/
def unmarshal_msg (data : List Nat) : Except String BucketReplicationResyncStatus :=
  match (do
    let (ver, r1) ← decNat data
    let (n, r2) ← decNat r1
    let (tm, r3) ← decTargetsMap n r2
    let (i, r4) ← decInt r3
    let (lu, r5) ← decOpt decNat r4
    some (({ version := ver, targets_map := tm, id := i, last_update := lu } :
      BucketReplicationResyncStatus), r5) : Option (BucketReplicationResyncStatus × List Nat)) with
  | some (st, []) => Except.ok st
  | some (_, _ :: _) => Except.error "trailing bytes"
  | none => Except.error "invalid body"

/-- Two-byte little-endian encoding, as `byteorder::LittleEndian::write_u16`. -/
def u16le (v : Nat) : List Nat :=
  [v % 256, v / 256 % 256]

/-- The bytes assembled by `save_resync_status` (resyncer.rs lines
275-294): 2-byte little-endian format id, 2-byte little-endian version
id, then the body encoding of the full status. -/
def resyncBlobBytes (st : BucketReplicationResyncStatus) : List Nat :=
  u16le RESYNC_META_FORMAT ++ u16le RESYNC_META_VERSION ++ marshal_msg st

/-- Modelled from the spec: `BUCKET_META_PREFIX`, the fixed
bucket-metadata prefix constant from the external `rustfs_ecstore`
crate. -/
def bucketMetaRoot : String := "buckets"

/-- Modelled from the spec: `path_join_buf` from the external
`rustfs_utils` crate, joining path segments with a separator. -/
def pathJoin (segments : List String) : String :=
  String.intercalate "/" segments

/-- The durable path used by `save_resync_status`:
`BUCKET_META_PREFIX/<bucket>/.replication/resync.bin`. -/
def resyncPath (bucket : String) : String :=
  pathJoin [bucketMetaRoot, bucket, REPLICATION_DIR, RESYNC_FILE_NAME]

/-- Modelled from the spec: the reader of the durable resync status
blob (not under src/; only the writer and `unmarshal_msg` are).  Per the
spec it validates the 2-byte format id and the 2-byte version id against
the expected constants before decoding the body, rejecting unknown
values. -/
def loadResyncStatus (data : List Nat) : Except String BucketReplicationResyncStatus :=
  match data with
  | f0 :: f1 :: v0 :: v1 :: body =>
    if f0 + 256 * f1 ≠ RESYNC_META_FORMAT then Except.error "unknown resync meta format"
    else if v0 + 256 * v1 ≠ RESYNC_META_VERSION then Except.error "unknown resync meta version"
    else unmarshal_msg body
  | _ => Except.error "corrupt resync meta header"

/-- The 2-byte little-endian format and version ids at the head of a
byte sequence, when 4 header bytes are present. -/
def blobHeader : List Nat → Option (Nat × Nat)
  | f0 :: f1 :: v0 :: v1 :: _ => some (f0 + 256 * f1, v0 + 256 * v1)
  | _ => none

/-! ### Resync coordinator state and operations -/

/-- `ResyncOpts`, from resyncer.rs lines 27-32. -/
structure ResyncOpts where
  bucket : String
  arn : String
  resync_id : String
  resync_before : Option Nat
deriving DecidableEq, Repr

/-- The shared state of `ReplicationResyncer` together with the durable
store behind the `StorageAPI`: the in-memory `status_map` and the
durable files keyed by path. -/
structure ResyncerState where
  status_map : List (String × BucketReplicationResyncStatus)
  disk : List (String × List Nat)
deriving DecidableEq, Repr

/-- `save_resync_status` (resyncer.rs lines 275-294) as a transformation
of the durable store: writes the header-plus-body bytes of the full
status to the fixed per-bucket path. -/
def save_resync_status (bucket : String) (status : BucketReplicationResyncStatus)
    (disk : List (String × List Nat)) : List (String × List Nat) :=
  mapSet disk (resyncPath bucket) (resyncBlobBytes status)

/-- The target-record update performed by `mark_status` under the write
lock: get-or-create the record for `opts.arn`, set its `resync_status`,
stamp its `last_update`. -/
def markTargetState (now : Nat) (status : ResyncStatusType) (opts : ResyncOpts)
    (bucket_status : BucketReplicationResyncStatus) : TargetReplicationResyncStatus :=
  let state := (mapGet bucket_status.targets_map opts.arn).getD TargetReplicationResyncStatus.new
  { state with resync_status := status, last_update := some now }

/-- The bucket-record update performed by `mark_status` under the write
lock: get-or-create the bucket record (fresh records get `id = 0`),
update the target record, stamp the bucket-level `last_update`. -/
def markBucketStatus (now : Nat) (status : ResyncStatusType) (opts : ResyncOpts)
    (s : ResyncerState) : BucketReplicationResyncStatus :=
  let bucket_status := (mapGet s.status_map opts.bucket).getD
    { BucketReplicationResyncStatus.new with id := 0 }
  { bucket_status with
      targets_map := mapSet bucket_status.targets_map opts.arn
        (markTargetState now status opts bucket_status)
      last_update := some now }

/-- `ReplicationResyncer::mark_status` (resyncer.rs lines 146-178): the
in-memory update happens first under the write lock, then the cloned
bucket record is flushed synchronously via `save_resync_status`.
`writeOk` injects the success or failure of the durable write; on
failure the error propagates (`?`) after the in-memory update already
happened. -/
def mark_status (now : Nat) (status : ResyncStatusType) (opts : ResyncOpts)
    (writeOk : Bool) (s : ResyncerState) : ResyncerState × Except String Unit :=
  let bucket_status := markBucketStatus now status opts s
  let status_map := mapSet s.status_map opts.bucket bucket_status
  if writeOk then
    ({ status_map := status_map, disk := save_resync_status opts.bucket bucket_status s.disk },
      Except.ok ())
  else
    ({ status_map := status_map, disk := s.disk }, Except.error "save failed")

/-- Wrap-around of a signed 64-bit value, as Rust release-build `i64`
arithmetic: the representative of the value modulo 2^64 lying in
[-2^63, 2^63). -/
def wrapI64 (x : Int) : Int :=
  (x + 2 ^ 63) % 2 ^ 64 - 2 ^ 63

/-- Membership in the representable `i64` range. -/
abbrev i64InRange (x : Int) : Prop :=
  -(2 ^ 63) ≤ x ∧ x < 2 ^ 63

/-- The target-record update performed by `inc_stats`: get-or-create,
copy the in-flight object name, add the signed i64 deltas — `+=` wraps
around on overflow in release builds, modelled by `wrapI64` — and stamp
`last_update`. -/
def incTargetState (now : Nat) (delta : TargetReplicationResyncStatus) (opts : ResyncOpts)
    (bucket_status : BucketReplicationResyncStatus) : TargetReplicationResyncStatus :=
  let state := (mapGet bucket_status.targets_map opts.arn).getD TargetReplicationResyncStatus.new
  { state with
      object := delta.object
      replicated_count := wrapI64 (state.replicated_count + delta.replicated_count)
      replicated_size := wrapI64 (state.replicated_size + delta.replicated_size)
      failed_count := wrapI64 (state.failed_count + delta.failed_count)
      failed_size := wrapI64 (state.failed_size + delta.failed_size)
      last_update := some now }

/-- `ReplicationResyncer::inc_stats` (resyncer.rs lines 180-207): pure
in-memory accumulation, no durable write. -/
def inc_stats (now : Nat) (delta : TargetReplicationResyncStatus) (opts : ResyncOpts)
    (s : ResyncerState) : ResyncerState :=
  let bucket_status := (mapGet s.status_map opts.bucket).getD
    { BucketReplicationResyncStatus.new with id := 0 }
  let bucket_status :=
    { bucket_status with
        targets_map := mapSet bucket_status.targets_map opts.arn
          (incTargetState now delta opts bucket_status)
        last_update := some now }
  { s with status_map := mapSet s.status_map opts.bucket bucket_status }

/-- One pass of the bucket scan inside `persist_to_disk` (resyncer.rs
lines 219-250), faithful to the source: the `update` flag is declared
OUTSIDE the per-bucket loop and is never reset, a bucket whose target
has `last_update == None` sets it, the per-bucket dirty check compares
the bucket `last_update` against the recorded flush time (default
`UNIX_EPOCH`, modelled as 0), and a flushed bucket records
`status.last_update.unwrap()` — `none` there is the panic, modelled as
the whole scan returning `none`.  Durable writes succeed in this model
(the loop only logs failures).  Returns the flushed buckets in scan
order, the new recorded flush times and the new durable store. -/
def persistScan : List (String × BucketReplicationResyncStatus) → Bool →
    List (String × Nat) → List (String × List Nat) → List String →
    Option (List String × List (String × Nat) × List (String × List Nat))
  | [], _, lt, disk, written => some (written.reverse, lt, disk)
  | (bucket, status) :: rest, update0, lt, disk, written =>
    let update1 := update0 || status.targets_map.any (fun p => p.2.last_update.isNone)
    let update2 := update1 ||
      (match status.last_update with
        | some lu => decide ((mapGet lt bucket).getD 0 < lu)
        | none => false)
    if update2 then
      match status.last_update with
      | none => none
      | some lu =>
        persistScan rest update2 (mapSet lt bucket lu)
          (save_resync_status bucket status disk) (bucket :: written)
    else persistScan rest update2 lt disk written

/-- One timer tick of `ReplicationResyncer::persist_to_disk`: scans the
in-memory map with the dirty flag initially false.  `none` is the
`unwrap` panic. -/
def persist_tick (s : ResyncerState) (lt : List (String × Nat)) :
    Option (List String × List (String × Nat) × ResyncerState) :=
  match persistScan s.status_map false lt s.disk [] with
  | some (written, lt2, disk2) => some (written, lt2, { s with disk := disk2 })
  | none => none

/-- The states of the resync coordinator producible by its public
operations from the fresh `ReplicationResyncer::new` state: `mark_status`
(with either durable-write outcome), `inc_stats`, and non-panicking
persistence ticks. -/
inductive Reachable : ResyncerState → Prop where
  | init : Reachable { status_map := [], disk := [] }
  | mark (s : ResyncerState) (now : Nat) (status : ResyncStatusType) (opts : ResyncOpts)
      (writeOk : Bool) : Reachable s → Reachable (mark_status now status opts writeOk s).1
  | incr (s : ResyncerState) (now : Nat) (delta : TargetReplicationResyncStatus)
      (opts : ResyncOpts) : Reachable s → Reachable (inc_stats now delta opts s)
  | tick (s : ResyncerState) (lt : List (String × Nat)) (written : List String)
      (lt2 : List (String × Nat)) (s2 : ResyncerState) : Reachable s →
      persist_tick s lt = some (written, lt2, s2) → Reachable s2

/-- Every bucket record in a status map carries a stamped `last_update`. -/
def BucketsStamped (m : List (String × BucketReplicationResyncStatus)) : Prop :=
  ∀ p ∈ m, p.2.last_update.isSome = true

/-- The target record a state holds for a (bucket, target) pair, default
when absent. -/
def targetOf (s : ResyncerState) (bucket arn : String) : TargetReplicationResyncStatus :=
  ((mapGet ((mapGet s.status_map bucket).getD BucketReplicationResyncStatus.new).targets_map arn).getD
    TargetReplicationResyncStatus.new)

/-- Comparison of optional timestamps as Rust's derived `Ord` on
`Option<OffsetDateTime>`: `None` precedes every `Some`. -/
def optTimeLe : Option Nat → Option Nat → Bool
  | none, _ => true
  | some _, none => false
  | some a, some b => a ≤ b

/-- Modelled from the spec: beginning a new `resync_id` for a target
creates a fresh `TargetReplicationResyncStatus` whose counters are reset
wholesale (the driver that starts a resync is not under src/; only the
string field types are, in resyncer.rs). -/
def startResyncTarget (now : Nat) (resync_id : String) (resync_before : Option Nat) :
    TargetReplicationResyncStatus :=
  { TargetReplicationResyncStatus.new with
      resync_id := resync_id
      resync_before_date := resync_before
      resync_status := ResyncStatusType.ResyncPending
      start_time := some now
      last_update := some now }

/-! ## MRF retry ledger (src/crates/replication/src/types.rs, pool.rs) -/

/-- `MRFReplicateEntry`, from types.rs lines 116-132. -/
structure MRFReplicateEntry where
  bucket : String
  object : String
  version_id : String
  retry_count : Int
  size : Int
deriving DecidableEq, Repr

/-- Whether an entry is for a given (bucket, object) key. -/
def mrfKeyMatch (b o : String) (x : MRFReplicateEntry) : Bool :=
  x.bucket = b && x.object = o

/-- The ledger entries for one (bucket, object) key. -/
def mrfEntriesFor (l : List MRFReplicateEntry) (b o : String) : List MRFReplicateEntry :=
  l.filter (mrfKeyMatch b o)

/-- Modelled from the spec: the MRF `record` operation behind
`ReplicationPool::mrf_save_ch` (pool.rs only declares the channel; the
consumer is not under src/).  Per the spec it appends a new entry or,
for an existing (bucket, object) key, increments `retry_count` rather
than duplicating. -/
def mrfRecord (l : List MRFReplicateEntry) (e : MRFReplicateEntry) : List MRFReplicateEntry :=
  if l.any (mrfKeyMatch e.bucket e.object) then
    l.map (fun x => if mrfKeyMatch e.bucket e.object x then
      { x with retry_count := x.retry_count + 1 } else x)
  else l ++ [e]

/-- Number of `Completed` values in a status list (specification-side
counter matching the `completed` accumulator of the source loop). -/
def countCompleted : List StatusType → Nat
  | [] => 0
  | StatusType.Completed :: rest => countCompleted rest + 1
  | _ :: rest => countCompleted rest

/-- Number of `Complete` values in a purge status list. -/
def countCompleteP : List VersionPurgeStatusType → Nat
  | [] => 0
  | VersionPurgeStatusType.Complete :: rest => countCompleteP rest + 1
  | _ :: rest => countCompleteP rest

/-! ## Concrete inputs used by the claim theorems -/

/-- Resync options used by concrete scenarios. -/
def optsA : ResyncOpts := { bucket := "a", arn := "t", resync_id := "", resync_before := none }

/-- Resync options for a second bucket. -/
def optsB : ResyncOpts := { bucket := "b", arn := "t", resync_id := "", resync_before := none }

/-- Bucket "a" marked at time 1 from the fresh state. -/
def c4s1 : ResyncerState :=
  (mark_status 1 ResyncStatusType.ResyncStarted optsA true { status_map := [], disk := [] }).1

/-- Bucket "b" then marked at time 2. -/
def c4s2 : ResyncerState :=
  (mark_status 2 ResyncStatusType.ResyncStarted optsB true c4s1).1

/-- Bucket "a" marked again at time 3 (so only "a" is dirty relative to
flush times recording a at 1 and b at 2). -/
def c4s3 : ResyncerState :=
  (mark_status 3 ResyncStatusType.ResyncStarted optsA true c4s2).1

/-- The per-bucket flush times after the first persistence tick of
`c4s2` (bucket "a" recorded at 1, bucket "b" at 2). -/
def c4lt : List (String × Nat) := [("a", 1), ("b", 2)]

/-- A bucket record whose bucket-level `last_update` is `none` while its
target's `last_update` is `none` — the shape named by claim C9. -/
def c9StuckBucket : BucketReplicationResyncStatus :=
  { version := 1
    targets_map := [("t", TargetReplicationResyncStatus.new)]
    id := 0
    last_update := none }

/-- A status map holding `c9StuckBucket`.  Not producible by the public
operations. -/
def c9StuckState : ResyncerState :=
  { status_map := [("b", c9StuckBucket)], disk := [] }

/-- A target record with counters already accumulated to 5. -/
def c8Target : TargetReplicationResyncStatus :=
  { TargetReplicationResyncStatus.new with replicated_count := 5, last_update := some 1 }

/-- A state holding `c8Target` for ("b", "t"). -/
def c8State : ResyncerState :=
  { status_map := [("b", { version := 1, targets_map := [("t", c8Target)], id := 0, last_update := some 1 })]
    disk := [] }

/-- An `inc_stats` delta with a negative replicated count (the i64
fields are signed). -/
def c8Delta : TargetReplicationResyncStatus :=
  { TargetReplicationResyncStatus.new with replicated_count := -1 }

/-- An `inc_stats` delta holding the largest representable i64
replicated count, 2^63 - 1. -/
def c8DeltaMax : TargetReplicationResyncStatus :=
  { TargetReplicationResyncStatus.new with replicated_count := 2 ^ 63 - 1 }

/-- A concrete MRF entry. -/
def mrfE : MRFReplicateEntry :=
  { bucket := "b", object := "o", version_id := "", retry_count := 0, size := 0 }




/-! # Helper lemmas -/

theorem mapGet_mapSet_self {α : Type} (m : List (String × α)) (k : String) (v : α) :
    mapGet (mapSet m k v) k = some v := by
  induction m with
  | nil => simp [mapGet, mapSet]
  | cons p rest ih =>
    obtain ⟨k2, v2⟩ := p
    by_cases h : k2 = k <;> simp [mapGet, mapSet, h, ih]

theorem mapGet_mapSet_ne {α : Type} (m : List (String × α)) (k k2 : String) (v : α)
    (h : k ≠ k2) : mapGet (mapSet m k v) k2 = mapGet m k2 := by
  induction m with
  | nil => simp [mapGet, mapSet, h]
  | cons p rest ih =>
    obtain ⟨k3, v3⟩ := p
    by_cases h3 : k3 = k
    · subst h3
      simp [mapGet, mapSet, h]
    · simp [mapGet, mapSet, h3, ih]

theorem mem_mapSet {α : Type} (m : List (String × α)) (k : String) (v : α)
    (p : String × α) (hp : p ∈ mapSet m k v) : p ∈ m ∨ p.2 = v := by
  induction m with
  | nil =>
    simp [mapSet] at hp
    simp [hp]
  | cons q rest ih =>
    obtain ⟨k2, v2⟩ := q
    by_cases h : k2 = k
    · simp [mapSet, h] at hp
      rcases hp with h1 | h1
      · right; simp [h1]
      · left; simp [h1]
    · simp [mapSet, h] at hp
      rcases hp with h1 | h1
      · left; simp [h1]
      · rcases ih h1 with h2 | h2
        · left; simp [h2]
        · right; exact h2

theorem replCompositeLoop_spec (l : List StatusType) (c t : Nat) :
    replCompositeLoop l c t =
      if StatusType.Failed ∈ l then StatusType.Failed
      else if c + countCompleted l = t then StatusType.Completed
      else StatusType.Pending := by
  induction l generalizing c with
  | nil => simp [replCompositeLoop, countCompleted]
  | cons s rest ih =>
    cases s
    case Failed => simp [replCompositeLoop]
    case Completed =>
      rw [show replCompositeLoop (StatusType.Completed :: rest) c t =
        replCompositeLoop rest (c + 1) t from rfl, ih]
      simp only [List.mem_cons, countCompleted]
      have harith : (c + (countCompleted rest + 1) = t) ↔ (c + 1 + countCompleted rest = t) := by
        omega
      simp [harith]
    all_goals
      simp [replCompositeLoop, countCompleted, ih, List.mem_cons]

theorem countCompleted_le (l : List StatusType) : countCompleted l ≤ l.length := by
  induction l with
  | nil => simp [countCompleted]
  | cons s rest ih => cases s <;> simp [countCompleted] <;> omega

theorem countCompleted_eq_length_iff (l : List StatusType) :
    countCompleted l = l.length ↔ ∀ s ∈ l, s = StatusType.Completed := by
  induction l with
  | nil => simp [countCompleted]
  | cons s rest ih =>
    have hle := countCompleted_le rest
    cases s <;> simp [countCompleted, ih] <;> omega

theorem purgeCompositeLoop_spec (l : List VersionPurgeStatusType) (c t : Nat) :
    purgeCompositeLoop l c t =
      if VersionPurgeStatusType.Failed ∈ l then VersionPurgeStatusType.Failed
      else if c + countCompleteP l = t then VersionPurgeStatusType.Complete
      else VersionPurgeStatusType.Pending := by
  induction l generalizing c with
  | nil => simp [purgeCompositeLoop, countCompleteP]
  | cons s rest ih =>
    cases s
    case Failed => simp [purgeCompositeLoop]
    case Complete =>
      rw [show purgeCompositeLoop (VersionPurgeStatusType.Complete :: rest) c t =
        purgeCompositeLoop rest (c + 1) t from rfl, ih]
      simp only [List.mem_cons, countCompleteP]
      have harith : (c + (countCompleteP rest + 1) = t) ↔ (c + 1 + countCompleteP rest = t) := by
        omega
      simp [harith]
    all_goals
      simp [purgeCompositeLoop, countCompleteP, ih, List.mem_cons]

theorem countCompleteP_le (l : List VersionPurgeStatusType) : countCompleteP l ≤ l.length := by
  induction l with
  | nil => simp [countCompleteP]
  | cons s rest ih => cases s <;> simp [countCompleteP] <;> omega

theorem countCompleteP_eq_length_iff (l : List VersionPurgeStatusType) :
    countCompleteP l = l.length ↔ ∀ s ∈ l, s = VersionPurgeStatusType.Complete := by
  induction l with
  | nil => simp [countCompleteP]
  | cons s rest ih =>
    have hle := countCompleteP_le rest
    cases s <;> simp [countCompleteP, ih] <;> omega

theorem get_composite_replication_status_eq (targets : List (String × StatusType)) :
    get_composite_replication_status targets =
      if targets = [] then StatusType.Empty
      else if StatusType.Failed ∈ targets.map Prod.snd then StatusType.Failed
      else if countCompleted (targets.map Prod.snd) = targets.length then StatusType.Completed
      else StatusType.Pending := by
  unfold get_composite_replication_status
  rw [replCompositeLoop_spec]
  simp [List.isEmpty_iff]

theorem get_composite_version_purge_status_eq (targets : List (String × VersionPurgeStatusType)) :
    get_composite_version_purge_status targets =
      if targets = [] then VersionPurgeStatusType.Empty
      else if VersionPurgeStatusType.Failed ∈ targets.map Prod.snd then VersionPurgeStatusType.Failed
      else if countCompleteP (targets.map Prod.snd) = targets.length then VersionPurgeStatusType.Complete
      else VersionPurgeStatusType.Pending := by
  unfold get_composite_version_purge_status
  rw [purgeCompositeLoop_spec]
  simp [List.isEmpty_iff]

theorem all_snd_completed (targets : List (String × StatusType)) :
    countCompleted (targets.map Prod.snd) = targets.length ↔
      ∀ p ∈ targets, p.2 = StatusType.Completed := by
  rw [show targets.length = (targets.map Prod.snd).length by simp]
  rw [countCompleted_eq_length_iff]
  simp only [List.mem_map, forall_exists_index, and_imp]
  constructor
  · intro h p hp
    exact h p.2 p hp rfl
  · intro h s p hp hs
    subst hs
    exact h p hp

theorem all_snd_completeP (targets : List (String × VersionPurgeStatusType)) :
    countCompleteP (targets.map Prod.snd) = targets.length ↔
      ∀ p ∈ targets, p.2 = VersionPurgeStatusType.Complete := by
  rw [show targets.length = (targets.map Prod.snd).length by simp]
  rw [countCompleteP_eq_length_iff]
  simp only [List.mem_map, forall_exists_index, and_imp]
  constructor
  · intro h p hp
    exact h p.2 p hp rfl
  · intro h s p hp hs
    subst hs
    exact h p hp

theorem repl_composite_iffs (targets : List (String × StatusType)) :
    (get_composite_replication_status targets = StatusType.Failed ↔
      ∃ p ∈ targets, p.2 = StatusType.Failed) ∧
    (get_composite_replication_status targets = StatusType.Completed ↔
      targets ≠ [] ∧ ∀ p ∈ targets, p.2 = StatusType.Completed) ∧
    (get_composite_replication_status targets = StatusType.Empty ↔ targets = []) ∧
    (get_composite_replication_status targets = StatusType.Pending ↔
      targets ≠ [] ∧ (¬∃ p ∈ targets, p.2 = StatusType.Failed) ∧
      ¬∀ p ∈ targets, p.2 = StatusType.Completed) := by
  have hfail : StatusType.Failed ∈ targets.map Prod.snd ↔
      ∃ p ∈ targets, p.2 = StatusType.Failed := by
    simp [List.mem_map]
  have hchar : get_composite_replication_status targets =
      if targets = [] then StatusType.Empty
      else if ∃ p ∈ targets, p.2 = StatusType.Failed then StatusType.Failed
      else if ∀ p ∈ targets, p.2 = StatusType.Completed then StatusType.Completed
      else StatusType.Pending := by
    rw [get_composite_replication_status_eq]
    simp only [hfail, all_snd_completed]
  rw [hchar]
  by_cases h1 : targets = []
  · simp [h1]
  · by_cases h2 : ∃ p ∈ targets, p.2 = StatusType.Failed
    · have h4 : ¬∀ p ∈ targets, p.2 = StatusType.Completed := by
        obtain ⟨p, hp, hf⟩ := h2
        intro hall
        have hc := hall p hp
        rw [hf] at hc
        exact absurd hc (by decide)
      simp only [if_neg h1, if_pos h2]
      exact ⟨⟨fun _ => h2, fun _ => trivial⟩,
        ⟨fun hx => absurd hx (by decide), fun hx => absurd hx.2 h4⟩,
        ⟨fun hx => absurd hx (by decide), fun hx => absurd hx h1⟩,
        ⟨fun hx => absurd hx (by decide), fun hx => absurd h2 hx.2.1⟩⟩
    · by_cases h3 : ∀ p ∈ targets, p.2 = StatusType.Completed
      · simp only [if_neg h1, if_neg h2, if_pos h3]
        exact ⟨⟨fun hx => absurd hx (by decide), fun hx => absurd hx h2⟩,
          ⟨fun _ => ⟨h1, h3⟩, fun _ => trivial⟩,
          ⟨fun hx => absurd hx (by decide), fun hx => absurd hx h1⟩,
          ⟨fun hx => absurd hx (by decide), fun hx => absurd h3 hx.2.2⟩⟩
      · simp only [if_neg h1, if_neg h2, if_neg h3]
        exact ⟨⟨fun hx => absurd hx (by decide), fun hx => absurd hx h2⟩,
          ⟨fun hx => absurd hx (by decide), fun hx => absurd hx.2 h3⟩,
          ⟨fun hx => absurd hx (by decide), fun hx => absurd hx h1⟩,
          ⟨fun _ => ⟨h1, h2, h3⟩, fun _ => trivial⟩⟩

theorem purge_composite_iffs (ptargets : List (String × VersionPurgeStatusType)) :
    (get_composite_version_purge_status ptargets = VersionPurgeStatusType.Failed ↔
      ∃ p ∈ ptargets, p.2 = VersionPurgeStatusType.Failed) ∧
    (get_composite_version_purge_status ptargets = VersionPurgeStatusType.Complete ↔
      ptargets ≠ [] ∧ ∀ p ∈ ptargets, p.2 = VersionPurgeStatusType.Complete) ∧
    (get_composite_version_purge_status ptargets = VersionPurgeStatusType.Empty ↔ ptargets = []) ∧
    (get_composite_version_purge_status ptargets = VersionPurgeStatusType.Pending ↔
      ptargets ≠ [] ∧ (¬∃ p ∈ ptargets, p.2 = VersionPurgeStatusType.Failed) ∧
      ¬∀ p ∈ ptargets, p.2 = VersionPurgeStatusType.Complete) := by
  have hfail : VersionPurgeStatusType.Failed ∈ ptargets.map Prod.snd ↔
      ∃ p ∈ ptargets, p.2 = VersionPurgeStatusType.Failed := by
    simp [List.mem_map]
  have hchar : get_composite_version_purge_status ptargets =
      if ptargets = [] then VersionPurgeStatusType.Empty
      else if ∃ p ∈ ptargets, p.2 = VersionPurgeStatusType.Failed then VersionPurgeStatusType.Failed
      else if ∀ p ∈ ptargets, p.2 = VersionPurgeStatusType.Complete then VersionPurgeStatusType.Complete
      else VersionPurgeStatusType.Pending := by
    rw [get_composite_version_purge_status_eq]
    simp only [hfail, all_snd_completeP]
  rw [hchar]
  by_cases h1 : ptargets = []
  · simp [h1]
  · by_cases h2 : ∃ p ∈ ptargets, p.2 = VersionPurgeStatusType.Failed
    · have h4 : ¬∀ p ∈ ptargets, p.2 = VersionPurgeStatusType.Complete := by
        obtain ⟨p, hp, hf⟩ := h2
        intro hall
        have hc := hall p hp
        rw [hf] at hc
        exact absurd hc (by decide)
      simp only [if_neg h1, if_pos h2]
      exact ⟨⟨fun _ => h2, fun _ => trivial⟩,
        ⟨fun hx => absurd hx (by decide), fun hx => absurd hx.2 h4⟩,
        ⟨fun hx => absurd hx (by decide), fun hx => absurd hx h1⟩,
        ⟨fun hx => absurd hx (by decide), fun hx => absurd h2 hx.2.1⟩⟩
    · by_cases h3 : ∀ p ∈ ptargets, p.2 = VersionPurgeStatusType.Complete
      · simp only [if_neg h1, if_neg h2, if_pos h3]
        exact ⟨⟨fun hx => absurd hx (by decide), fun hx => absurd hx h2⟩,
          ⟨fun _ => ⟨h1, h3⟩, fun _ => trivial⟩,
          ⟨fun hx => absurd hx (by decide), fun hx => absurd hx h1⟩,
          ⟨fun hx => absurd hx (by decide), fun hx => absurd h3 hx.2.2⟩⟩
      · simp only [if_neg h1, if_neg h2, if_neg h3]
        exact ⟨⟨fun hx => absurd hx (by decide), fun hx => absurd hx h2⟩,
          ⟨fun hx => absurd hx (by decide), fun hx => absurd hx.2 h3⟩,
          ⟨fun hx => absurd hx (by decide), fun hx => absurd hx h1⟩,
          ⟨fun _ => ⟨h1, h2, h3⟩, fun _ => trivial⟩⟩

/-! # Claim theorems -/

/-- Claim C1: for every finite target-status map,
`get_composite_replication_status` returns Failed iff the map contains a
Failed value, Completed iff the map is non-empty and every value is
Completed, Empty iff the map is empty, and Pending in every other
non-empty case; `get_composite_version_purge_status` satisfies the
identical rule over Failed/Complete, returning Empty for the empty map. -/
theorem C1_composite_status (targets : List (String × StatusType))
    (ptargets : List (String × VersionPurgeStatusType)) :
    (get_composite_replication_status targets = StatusType.Failed ↔
      ∃ p ∈ targets, p.2 = StatusType.Failed) ∧
    (get_composite_replication_status targets = StatusType.Completed ↔
      targets ≠ [] ∧ ∀ p ∈ targets, p.2 = StatusType.Completed) ∧
    (get_composite_replication_status targets = StatusType.Empty ↔ targets = []) ∧
    (get_composite_replication_status targets = StatusType.Pending ↔
      targets ≠ [] ∧ (¬∃ p ∈ targets, p.2 = StatusType.Failed) ∧
      ¬∀ p ∈ targets, p.2 = StatusType.Completed) ∧
    (get_composite_version_purge_status ptargets = VersionPurgeStatusType.Failed ↔
      ∃ p ∈ ptargets, p.2 = VersionPurgeStatusType.Failed) ∧
    (get_composite_version_purge_status ptargets = VersionPurgeStatusType.Complete ↔
      ptargets ≠ [] ∧ ∀ p ∈ ptargets, p.2 = VersionPurgeStatusType.Complete) ∧
    (get_composite_version_purge_status ptargets = VersionPurgeStatusType.Empty ↔ ptargets = []) ∧
    (get_composite_version_purge_status ptargets = VersionPurgeStatusType.Pending ↔
      ptargets ≠ [] ∧ (¬∃ p ∈ ptargets, p.2 = VersionPurgeStatusType.Failed) ∧
      ¬∀ p ∈ ptargets, p.2 = VersionPurgeStatusType.Complete) := by
  obtain ⟨a1, a2, a3, a4⟩ := repl_composite_iffs targets
  obtain ⟨b1, b2, b3, b4⟩ := purge_composite_iffs ptargets
  exact ⟨a1, a2, a3, a4, b1, b2, b3, b4⟩

/-- Claim C2 counterexample: in `c2State` the internal status string is
empty and the per-target map derives Completed, yet
`composite_replication_status` returns Empty — the code does not fall
back to the per-target derivation when the internal string is empty, so
the claim's "otherwise the result is derived from s.targets" is false
at this input. -/
theorem C2_counterexample :
    c2State.replication_status_internal = "" ∧
    c2State.replica_timestamp = none ∧
    get_composite_replication_status c2State.targets = StatusType.Completed ∧
    c2State.composite_replication_status = StatusType.Empty ∧
    c2State.composite_replication_status ≠ get_composite_replication_status c2State.targets := by
  decide

/-- Claim C2 (amended): a non-empty internal status string parsing to
Pending, Completed, Failed or Replica is returned verbatim; a non-empty
internal string parsing otherwise yields the composite derived from the
per-target map, except that a Completed composite is replaced by
`replica_status` when both timestamps are present and the replica
timestamp is strictly later; an empty internal string yields
`replica_status` (hence Empty when `replica_status` is Empty), not the
per-target derivation. -/
theorem C2_amended_composite (s : ReplicationState) :
    s.composite_replication_status = compositeReplicationStatusSpec s := by
  unfold ReplicationState.composite_replication_status compositeReplicationStatusSpec
  cases hE : s.replication_status_internal.isEmpty
  · simp only [hE, Bool.false_eq_true, not_false_iff, if_true, if_false, ite_true, ite_false]
    cases hP : StatusType.fromStr s.replication_status_internal <;> simp only [hP]
    case Pending => simp
    case Completed => simp
    case Failed => simp
    case Replica => simp
    all_goals
      cases hA : s.replica_timestamp with
      | none => simp
      | some a =>
        cases hB : s.replication_timestamp with
        | none =>
          by_cases hr : get_composite_replication_status s.targets = StatusType.Completed <;>
            simp [hr]
        | some b =>
          by_cases hr : get_composite_replication_status s.targets = StatusType.Completed <;>
            by_cases hab : b < a <;> simp [hr, hab]
  · simp only [hE, not_true, if_false, ite_true, ite_false]
    by_cases hR : s.replica_status = StatusType.Empty <;> simp [hR]

/-- Claim C3: every successful `mark_status(bucket, target, status)` call
updates the in-memory entry for (bucket, target) to the given status,
stamps its `last_update`, and synchronously flushes the bucket's full
status blob to the durable store before returning; and after
`mark_status(b, t, ResyncStarted)` followed by
`mark_status(b, t, ResyncCompleted)` from the fresh state, the persisted
blob for b is the encoding of a bucket status whose entry for t has
`resync_status = ResyncCompleted` and `start_time ≤ last_update` (under
the source ordering on optional timestamps, where an unset time precedes
every set one). -/
theorem C3_mark_status_persists :
    (∀ (s : ResyncerState) (now : Nat) (status : ResyncStatusType) (opts : ResyncOpts),
      ∃ bst, mapGet (mark_status now status opts true s).1.status_map opts.bucket = some bst ∧
        mapGet (mark_status now status opts true s).1.disk (resyncPath opts.bucket) =
          some (resyncBlobBytes bst) ∧
        bst.last_update = some now ∧
        ∃ tst, mapGet bst.targets_map opts.arn = some tst ∧
          tst.resync_status = status ∧ tst.last_update = some now) ∧
    (∀ (opts : ResyncOpts) (t1 t2 : Nat),
      ∃ bst, mapGet ((mark_status t2 ResyncStatusType.ResyncCompleted opts true
            (mark_status t1 ResyncStatusType.ResyncStarted opts true
              { status_map := [], disk := [] }).1).1.disk) (resyncPath opts.bucket) =
          some (resyncBlobBytes bst) ∧
        ∃ tst, mapGet bst.targets_map opts.arn = some tst ∧
          tst.resync_status = ResyncStatusType.ResyncCompleted ∧
          optTimeLe tst.start_time tst.last_update = true) := by
  constructor
  · intro s now status opts
    refine ⟨markBucketStatus now status opts s, ?_, ?_, rfl,
      markTargetState now status opts ((mapGet s.status_map opts.bucket).getD
        { BucketReplicationResyncStatus.new with id := 0 }), ?_, rfl, rfl⟩
    · exact mapGet_mapSet_self _ _ _
    · exact mapGet_mapSet_self _ _ _
    · exact mapGet_mapSet_self _ _ _
  · intro opts t1 t2
    refine ⟨markBucketStatus t2 ResyncStatusType.ResyncCompleted opts
      (mark_status t1 ResyncStatusType.ResyncStarted opts true
        { status_map := [], disk := [] }).1, ?_, ?_⟩
    · exact mapGet_mapSet_self _ _ _
    · refine ⟨markTargetState t2 ResyncStatusType.ResyncCompleted opts
        ((mapGet (mark_status t1 ResyncStatusType.ResyncStarted opts true
            { status_map := [], disk := [] }).1.status_map opts.bucket).getD
          { BucketReplicationResyncStatus.new with id := 0 }), ?_, rfl, ?_⟩
      · exact mapGet_mapSet_self _ _ _
      · have hget : mapGet (mark_status t1 ResyncStatusType.ResyncStarted opts true
            { status_map := [], disk := [] }).1.status_map opts.bucket =
            some (markBucketStatus t1 ResyncStatusType.ResyncStarted opts
              { status_map := [], disk := [] }) := mapGet_mapSet_self _ _ _
        rw [hget]
        have htm : mapGet (markBucketStatus t1 ResyncStatusType.ResyncStarted opts
            { status_map := [], disk := [] }).targets_map opts.arn =
            some (markTargetState t1 ResyncStatusType.ResyncStarted opts
              { BucketReplicationResyncStatus.new with id := 0 }) := mapGet_mapSet_self _ _ _
        show optTimeLe ((mapGet (markBucketStatus t1 ResyncStatusType.ResyncStarted opts
            { status_map := [], disk := [] }).targets_map opts.arn).getD
          TargetReplicationResyncStatus.new).start_time (some t2) = true
        rw [htm]
        rfl

theorem persistScan_cons (bucket : String) (status : BucketReplicationResyncStatus)
    (rest : List (String × BucketReplicationResyncStatus)) (u : Bool)
    (lt : List (String × Nat)) (disk : List (String × List Nat)) (written : List String) :
    persistScan ((bucket, status) :: rest) u lt disk written =
      (if (u || status.targets_map.any (fun p => p.2.last_update.isNone)) ||
          (match status.last_update with
            | some lu => decide ((mapGet lt bucket).getD 0 < lu)
            | none => false) then
        match status.last_update with
        | none => none
        | some lu =>
          persistScan rest
            ((u || status.targets_map.any (fun p => p.2.last_update.isNone)) ||
              (match status.last_update with
                | some lu => decide ((mapGet lt bucket).getD 0 < lu)
                | none => false))
            (mapSet lt bucket lu) (save_resync_status bucket status disk) (bucket :: written)
      else
        persistScan rest
          ((u || status.targets_map.any (fun p => p.2.last_update.isNone)) ||
            (match status.last_update with
              | some lu => decide ((mapGet lt bucket).getD 0 < lu)
              | none => false))
          lt disk written) := rfl

theorem persistScan_mem_acc (m : List (String × BucketReplicationResyncStatus))
    (u : Bool) (lt : List (String × Nat)) (disk : List (String × List Nat))
    (written : List String) (x : String) (hx : x ∈ written) (w : List String)
    (lt2 : List (String × Nat)) (disk2 : List (String × List Nat))
    (h : persistScan m u lt disk written = some (w, lt2, disk2)) : x ∈ w := by
  induction m generalizing u lt disk written with
  | nil =>
    simp only [persistScan, Option.some.injEq, Prod.mk.injEq] at h
    rw [← h.1]
    simpa using hx
  | cons p rest ih =>
    obtain ⟨bucket, status⟩ := p
    rw [persistScan_cons] at h
    split at h
    · cases hlu : status.last_update with
      | none => rw [hlu] at h; exact absurd h (by simp)
      | some lu =>
        rw [hlu] at h
        exact ih _ _ _ _ (List.mem_cons_of_mem _ hx) h
    · exact ih _ _ _ _ hx h

theorem persistScan_total (m : List (String × BucketReplicationResyncStatus))
    (hm : ∀ p ∈ m, p.2.last_update.isSome = true) (u : Bool) (lt : List (String × Nat))
    (disk : List (String × List Nat)) (written : List String) :
    (persistScan m u lt disk written).isSome = true := by
  induction m generalizing u lt disk written with
  | nil => simp [persistScan]
  | cons p rest ih =>
    obtain ⟨bucket, status⟩ := p
    have hs : status.last_update.isSome = true := hm (bucket, status) (by simp)
    have hrest : ∀ p ∈ rest, p.2.last_update.isSome = true :=
      fun p hp => hm p (List.mem_cons_of_mem _ hp)
    cases hlu : status.last_update with
    | none => rw [hlu] at hs; simp at hs
    | some lu =>
      rw [persistScan_cons]
      split
      · rw [hlu]
        exact ih hrest _ _ _ _
      · exact ih hrest _ _ _ _

theorem persistScan_writes_dirty (m : List (String × BucketReplicationResyncStatus))
    (u : Bool) (lt : List (String × Nat)) (disk : List (String × List Nat))
    (written : List String) (b : String) (st : BucketReplicationResyncStatus) (lu : Nat)
    (hget : mapGet m b = some st) (hlu : st.last_update = some lu)
    (hdirty : (mapGet lt b).getD 0 < lu) (w : List String) (lt2 : List (String × Nat))
    (disk2 : List (String × List Nat))
    (h : persistScan m u lt disk written = some (w, lt2, disk2)) : b ∈ w := by
  induction m generalizing u lt disk written with
  | nil => simp [mapGet] at hget
  | cons p rest ih =>
    obtain ⟨bucket, status⟩ := p
    by_cases hb : bucket = b
    · subst hb
      have hst : status = st := by
        simpa [mapGet] using hget
      subst hst
      rw [persistScan_cons] at h
      rw [if_pos (by simp [hlu, hdirty])] at h
      rw [hlu] at h
      exact persistScan_mem_acc _ _ _ _ _ bucket (by simp) _ _ _ h
    · have hget2 : mapGet rest b = some st := by
        simpa [mapGet, hb] using hget
      rw [persistScan_cons] at h
      split at h
      · cases hlu2 : status.last_update with
        | none => rw [hlu2] at h; exact absurd h (by simp)
        | some lu2 =>
          rw [hlu2] at h
          have hdirty2 : (mapGet (mapSet lt bucket lu2) b).getD 0 < lu :=
            (mapGet_mapSet_ne lt bucket b lu2 hb) ▸ hdirty
          exact ih _ _ _ _ hget2 hdirty2 h
      · exact ih _ _ _ _ hget2 hdirty h

theorem reachable_stamped (s : ResyncerState) (h : Reachable s) : BucketsStamped s.status_map := by
  induction h with
  | init => intro p hp; simp at hp
  | mark s now status opts writeOk hs ih =>
    intro p hp
    have hmem : p ∈ mapSet s.status_map opts.bucket (markBucketStatus now status opts s) := by
      cases writeOk <;> exact hp
    rcases mem_mapSet _ _ _ _ hmem with h1 | h1
    · exact ih p h1
    · rw [h1]; rfl
  | incr s now delta opts hs ih =>
    intro p hp
    rcases mem_mapSet _ _ _ _ hp with h1 | h1
    · exact ih p h1
    · rw [h1]; rfl
  | tick s lt written lt2 s2 hs htick ih =>
    unfold persist_tick at htick
    cases hscan : persistScan s.status_map false lt s.disk [] with
    | none => rw [hscan] at htick; exact absurd htick (by simp)
    | some r =>
      obtain ⟨w2, l2, d2⟩ := r
      rw [hscan] at htick
      simp only [Option.some.injEq, Prod.mk.injEq] at htick
      obtain ⟨-, -, hs2⟩ := htick
      rw [← hs2]
      exact ih

theorem reachable_tick_total (s : ResyncerState) (h : Reachable s) (lt : List (String × Nat)) :
    (persist_tick s lt).isSome = true := by
  have htot := persistScan_total s.status_map (reachable_stamped s h) false lt s.disk []
  cases hscan : persistScan s.status_map false lt s.disk [] with
  | none => rw [hscan] at htot; simp at htot
  | some r =>
    obtain ⟨a, b, c⟩ := r
    simp [persist_tick, hscan]

/-- Claim C9 counterexample (negation of the claim): there is no
reachable state of the in-memory status map on which a persistence tick
reaches the `unwrap` of a `None` bucket `last_update` and panics — every
state the public operations produce keeps a stamped bucket-level
`last_update`, so the scan is total there. -/
theorem C9_counterexample :
    ¬∃ (s : ResyncerState) (lt : List (String × Nat)), Reachable s ∧ persist_tick s lt = none := by
  rintro ⟨s, lt, hs, hnone⟩
  have htot := reachable_tick_total s hs lt
  rw [hnone] at htot
  simp at htot

/-- Claim C9 (amended): `persist_to_disk` does contain an `unwrap` that
panics on a status map holding a flushed bucket whose `last_update` is
`None` (e.g. a bucket-level `None` alongside a target-level `None`, as
in `c9StuckState`), but no such state is producible by the public
operations — `mark_status` and `inc_stats` stamp the bucket-level
`last_update` on every update — so on every reachable state every
persistence tick completes without panicking. -/
theorem C9_amended_tick_total (s : ResyncerState) (h : Reachable s) (lt : List (String × Nat)) :
    (persist_tick s lt).isSome = true ∧ persist_tick c9StuckState [] = none :=
  ⟨reachable_tick_total s h lt, by decide⟩

/-- Witness for C9: the amended theorem applied to a concrete reachable
state (one `mark_status` from the fresh state). -/
theorem C9_witness :
    (persist_tick (mark_status 1 ResyncStatusType.ResyncStarted optsA true
      { status_map := [], disk := [] }).1 []).isSome = true ∧
    persist_tick c9StuckState [] = none :=
  C9_amended_tick_total _ (Reachable.mark _ 1 ResyncStatusType.ResyncStarted optsA true
    Reachable.init) []

/-- Claim C4 (code bug, evaluated at the failing input): after bucket
"a" is updated at time 3 while bucket "b" is unchanged since its
recorded flush at time 2 (`c4lt` is exactly what the previous tick
recorded), one persistence tick durably writes BOTH buckets: the `update`
dirty flag is declared outside the per-bucket loop and is never reset,
so the write for "b" happens even though "b" is clean — against the
per-bucket dirty check the claim and the spec describe. -/
theorem C4_leaked_dirty_flag :
    (persist_tick c4s2 []).map (fun r => r.2.1) = some c4lt ∧
    ((mapGet c4s3.status_map "b").getD BucketReplicationResyncStatus.new).last_update = some 2 ∧
    mapGet c4lt "b" = some 2 ∧
    (((mapGet c4s3.status_map "b").getD BucketReplicationResyncStatus.new).targets_map.all
      (fun p => p.2.last_update.isSome)) = true ∧
    (persist_tick c4s3 c4lt).map (fun r => r.1) = some ["a", "b"] := by
  decide

/-- Claim C10: when the synchronous durable flush fails, `mark_status`
returns the error, the durable store is unchanged, yet the in-memory
map already holds the new `resync_status` and stamped `last_update` for
(bucket, target), and that bucket is flushed by the next persistence
tick (it is dirty relative to any earlier recorded flush time). -/
theorem C10_mark_status_error_visible (s : ResyncerState) (now : Nat)
    (status : ResyncStatusType) (opts : ResyncOpts) (lt : List (String × Nat))
    (hfresh : (mapGet lt opts.bucket).getD 0 < now) :
    (mark_status now status opts false s).2 = Except.error "save failed" ∧
    (mark_status now status opts false s).1.disk = s.disk ∧
    (∃ bst, mapGet (mark_status now status opts false s).1.status_map opts.bucket = some bst ∧
      bst.last_update = some now ∧
      ∃ tst, mapGet bst.targets_map opts.arn = some tst ∧
        tst.resync_status = status ∧ tst.last_update = some now) ∧
    (∀ w lt2 s2, persist_tick (mark_status now status opts false s).1 lt = some (w, lt2, s2) →
      opts.bucket ∈ w) := by
  refine ⟨rfl, rfl, ⟨markBucketStatus now status opts s, mapGet_mapSet_self _ _ _, rfl,
    markTargetState now status opts ((mapGet s.status_map opts.bucket).getD
      { BucketReplicationResyncStatus.new with id := 0 }), mapGet_mapSet_self _ _ _, rfl, rfl⟩, ?_⟩
  intro w lt2 s2 h
  unfold persist_tick at h
  cases hscan : persistScan (mark_status now status opts false s).1.status_map false lt
      (mark_status now status opts false s).1.disk [] with
  | none => rw [hscan] at h; exact absurd h (by simp)
  | some r =>
    obtain ⟨w2, l2, d2⟩ := r
    rw [hscan] at h
    simp only [Option.some.injEq, Prod.mk.injEq] at h
    obtain ⟨hw, -, -⟩ := h
    rw [← hw]
    exact persistScan_writes_dirty _ _ _ _ _ opts.bucket (markBucketStatus now status opts s)
      now (mapGet_mapSet_self _ _ _) rfl hfresh _ _ _ hscan

/-- Witness for C10: the theorem applied to the fresh state at time 5
with no recorded flush times. -/
theorem C10_witness :
    (mark_status 5 ResyncStatusType.ResyncStarted optsA false { status_map := [], disk := [] }).2 =
      Except.error "save failed" ∧
    (mark_status 5 ResyncStatusType.ResyncStarted optsA false
      { status_map := [], disk := [] }).1.disk = ({ status_map := [], disk := [] } : ResyncerState).disk ∧
    (∃ bst, mapGet (mark_status 5 ResyncStatusType.ResyncStarted optsA false
        { status_map := [], disk := [] }).1.status_map optsA.bucket = some bst ∧
      bst.last_update = some 5 ∧
      ∃ tst, mapGet bst.targets_map optsA.arn = some tst ∧
        tst.resync_status = ResyncStatusType.ResyncStarted ∧ tst.last_update = some 5) ∧
    (∀ w lt2 s2, persist_tick (mark_status 5 ResyncStatusType.ResyncStarted optsA false
        { status_map := [], disk := [] }).1 [] = some (w, lt2, s2) → optsA.bucket ∈ w) :=
  C10_mark_status_error_visible { status_map := [], disk := [] } 5
    ResyncStatusType.ResyncStarted optsA [] (by decide)

/-- Claim C5: the blob reader validates the 2-byte little-endian format
id and version id against the expected constants (1, 1) before decoding
the body; for every byte sequence whose header format or version
mismatches those constants (including truncated headers) it returns an
error rather than a value. -/
theorem C5_header_validation (data : List Nat)
    (h : blobHeader data ≠ some (RESYNC_META_FORMAT, RESYNC_META_VERSION)) :
    ∃ e, loadResyncStatus data = Except.error e := by
  cases data with
  | nil => exact ⟨"corrupt resync meta header", rfl⟩
  | cons f0 r1 =>
    cases r1 with
    | nil => exact ⟨"corrupt resync meta header", rfl⟩
    | cons f1 r2 =>
      cases r2 with
      | nil => exact ⟨"corrupt resync meta header", rfl⟩
      | cons v0 r3 =>
        cases r3 with
        | nil => exact ⟨"corrupt resync meta header", rfl⟩
        | cons v1 body =>
          by_cases hf : f0 + 256 * f1 = RESYNC_META_FORMAT
          · by_cases hv : v0 + 256 * v1 = RESYNC_META_VERSION
            · exact absurd (by simp [blobHeader, hf, hv]) h
            · exact ⟨"unknown resync meta version", by simp [loadResyncStatus, hf, hv]⟩
          · exact ⟨"unknown resync meta format", by simp [loadResyncStatus, hf]⟩

/-- Witness for C5: a blob whose format id decodes to 2 is rejected. -/
theorem C5_witness :
    blobHeader [2, 0, 1, 0] ≠ some (RESYNC_META_FORMAT, RESYNC_META_VERSION) ∧
    ∃ e, loadResyncStatus [2, 0, 1, 0] = Except.error e :=
  ⟨by decide, C5_header_validation [2, 0, 1, 0] (by decide)⟩

theorem loadResyncStatus_valid_header (st : BucketReplicationResyncStatus) :
    loadResyncStatus (resyncBlobBytes st) = unmarshal_msg (marshal_msg st) := rfl

theorem load_save_roundtrip_example :
    loadResyncStatus (resyncBlobBytes c9StuckBucket) = Except.ok c9StuckBucket := rfl

/-- Claim C6: `save_resync_status(b, s)` writes exactly the 2-byte
little-endian format id 1, then the 2-byte little-endian version id 1,
then the body encoding of the full status, at the path composed from the
fixed bucket-metadata prefix, the bucket name, the fixed subdirectory
".replication" and the fixed filename "resync.bin". -/
theorem C6_save_resync_layout (bucket : String) (status : BucketReplicationResyncStatus)
    (disk : List (String × List Nat)) :
    mapGet (save_resync_status bucket status disk)
      (pathJoin [bucketMetaRoot, bucket, ".replication", "resync.bin"]) =
      some ([1, 0] ++ [1, 0] ++ marshal_msg status) ∧
    u16le RESYNC_META_FORMAT = [1, 0] ∧
    u16le RESYNC_META_VERSION = [1, 0] ∧
    RESYNC_META_FORMAT = 1 ∧ RESYNC_META_VERSION = 1 ∧
    REPLICATION_DIR = ".replication" ∧ RESYNC_FILE_NAME = "resync.bin" :=
  ⟨mapGet_mapSet_self _ _ _, rfl, rfl, rfl, rfl, rfl, rfl⟩

theorem mrfKeyMatch_self (e : MRFReplicateEntry) : mrfKeyMatch e.bucket e.object e = true := by
  simp [mrfKeyMatch]

theorem mrf_any_iff (l : List MRFReplicateEntry) (b o : String) :
    l.any (mrfKeyMatch b o) = true ↔ mrfEntriesFor l b o ≠ [] := by
  rw [List.any_eq_true]
  constructor
  · rintro ⟨x, hx, hpx⟩ hnil
    have hmem : x ∈ mrfEntriesFor l b o := List.mem_filter.mpr ⟨hx, hpx⟩
    rw [hnil] at hmem
    simp at hmem
  · intro hne
    cases hm : mrfEntriesFor l b o with
    | nil => exact absurd hm hne
    | cons y ys =>
      have hy : y ∈ mrfEntriesFor l b o := by rw [hm]; simp
      have hf := List.mem_filter.mp hy
      exact ⟨y, hf.1, hf.2⟩

theorem mrfEntriesFor_map_bump (l : List MRFReplicateEntry) (b o : String) :
    mrfEntriesFor (l.map (fun x => if mrfKeyMatch b o x then
        { x with retry_count := x.retry_count + 1 } else x)) b o =
      (mrfEntriesFor l b o).map (fun x => { x with retry_count := x.retry_count + 1 }) := by
  induction l with
  | nil => rfl
  | cons x rest ih =>
    by_cases h : mrfKeyMatch b o x
    · simp only [List.map_cons, if_pos h]
      have hkey : mrfKeyMatch b o { x with retry_count := x.retry_count + 1 } = true := h
      simp [mrfEntriesFor, List.filter_cons, hkey, h, ih, mrfEntriesFor] at ih ⊢
      exact ih
    · simp only [List.map_cons, if_neg h]
      have hkey : mrfKeyMatch b o x = false := by
        rw [← Bool.not_eq_true]; exact h
      simp [mrfEntriesFor, List.filter_cons, hkey, ih, mrfEntriesFor] at ih ⊢
      exact ih

theorem mrfEntriesFor_append_self (l : List MRFReplicateEntry) (e : MRFReplicateEntry) :
    mrfEntriesFor (l ++ [e]) e.bucket e.object =
      mrfEntriesFor l e.bucket e.object ++ [e] := by
  simp [mrfEntriesFor, List.filter_append, mrfKeyMatch_self]

/-- Claim C7: recording an entry and then recording it again for the
same (bucket, object) key leaves the MRF ledger with exactly one entry
for that key, whose `retry_count` is the first entry's incremented by
one; the second record creates no duplicate (the ledger length is
unchanged).  The hypothesis states the ledger is well formed: at most
one entry per key, the invariant `record` itself maintains. -/
theorem C7_record_dedup (l : List MRFReplicateEntry) (e : MRFReplicateEntry)
    (h : (mrfEntriesFor l e.bucket e.object).length ≤ 1) :
    ∃ y, mrfEntriesFor (mrfRecord l e) e.bucket e.object = [y] ∧
      mrfEntriesFor (mrfRecord (mrfRecord l e) e) e.bucket e.object =
        [{ y with retry_count := y.retry_count + 1 }] ∧
      (mrfRecord (mrfRecord l e) e).length = (mrfRecord l e).length := by
  have step2 : ∀ l1 : List MRFReplicateEntry, ∀ y : MRFReplicateEntry,
      mrfEntriesFor l1 e.bucket e.object = [y] →
      mrfEntriesFor (mrfRecord l1 e) e.bucket e.object =
        [{ y with retry_count := y.retry_count + 1 }] ∧
      (mrfRecord l1 e).length = l1.length := by
    intro l1 y hy
    have hany : l1.any (mrfKeyMatch e.bucket e.object) = true :=
      (mrf_any_iff l1 e.bucket e.object).mpr (by rw [hy]; simp)
    unfold mrfRecord
    rw [hany]
    simp only [if_true, ite_true]
    refine ⟨?_, by simp⟩
    rw [mrfEntriesFor_map_bump, hy]
    rfl
  cases hm : mrfEntriesFor l e.bucket e.object with
  | nil =>
    have hany : l.any (mrfKeyMatch e.bucket e.object) = false := by
      rw [← Bool.not_eq_true]
      intro hc
      exact (mrf_any_iff l e.bucket e.object).mp hc hm
    have hl1 : mrfRecord l e = l ++ [e] := by
      unfold mrfRecord
      rw [hany]
      simp
    have hf1 : mrfEntriesFor (mrfRecord l e) e.bucket e.object = [e] := by
      rw [hl1, mrfEntriesFor_append_self, hm]
      rfl
    obtain ⟨hf2, hlen⟩ := step2 (mrfRecord l e) e hf1
    exact ⟨e, hf1, hf2, hlen⟩
  | cons y ys =>
    cases ys with
    | cons z zs => rw [hm] at h; simp at h
    | nil =>
      have hf1 : mrfEntriesFor (mrfRecord l e) e.bucket e.object =
          [{ y with retry_count := y.retry_count + 1 }] := by
        have hany : l.any (mrfKeyMatch e.bucket e.object) = true :=
          (mrf_any_iff l e.bucket e.object).mpr (by rw [hm]; simp)
        unfold mrfRecord
        rw [hany]
        simp only [if_true, ite_true]
        rw [mrfEntriesFor_map_bump, hm]
        rfl
      obtain ⟨hf2, hlen⟩ := step2 (mrfRecord l e) _ hf1
      exact ⟨{ y with retry_count := y.retry_count + 1 }, hf1, hf2, hlen⟩

/-- Witness for C7: recording a concrete entry twice into the empty
ledger leaves exactly one entry with `retry_count` incremented. -/
theorem C7_witness :
    (mrfEntriesFor [] mrfE.bucket mrfE.object).length ≤ 1 ∧
    ∃ y, mrfEntriesFor (mrfRecord [] mrfE) mrfE.bucket mrfE.object = [y] ∧
      mrfEntriesFor (mrfRecord (mrfRecord [] mrfE) mrfE) mrfE.bucket mrfE.object =
        [{ y with retry_count := y.retry_count + 1 }] ∧
      (mrfRecord (mrfRecord [] mrfE) mrfE).length = (mrfRecord [] mrfE).length :=
  ⟨by decide, C7_record_dedup [] mrfE (by decide)⟩

/-- Claim C8 counterexample: `inc_stats` adds signed i64 deltas, so a
call whose delta has `replicated_count = -1` decreases the accumulated
counter from 5 to 4; and because the source `+=` wraps on overflow in
release builds, even the nonnegative representable delta 2^63 - 1 wraps
the counter from 5 to -(2^63) + 4 — the counters are not monotone
non-decreasing across every sequence of `inc_stats` calls. -/
theorem C8_counterexample :
    (targetOf c8State "b" "t").replicated_count = 5 ∧
    (targetOf (inc_stats 2 c8Delta optsB c8State) "b" "t").replicated_count = 4 ∧
    (0 : Int) ≤ c8DeltaMax.replicated_count ∧
    i64InRange c8DeltaMax.replicated_count ∧
    (targetOf (inc_stats 2 c8DeltaMax optsB c8State) "b" "t").replicated_count =
      -(2 ^ 63) + 4 ∧
    (targetOf (inc_stats 2 c8DeltaMax optsB c8State) "b" "t").replicated_count <
      (targetOf c8State "b" "t").replicated_count := by
  decide

theorem wrapI64_eq_self (x : Int) (h : i64InRange x) : wrapI64 x = x := by
  obtain ⟨h1, h2⟩ := h
  unfold wrapI64
  have h3 : (x + 2 ^ 63) % 2 ^ 64 = x + 2 ^ 63 :=
    Int.emod_eq_of_lt (by omega) (by omega)
  omega

theorem targetOf_inc_stats (s : ResyncerState) (now : Nat)
    (delta : TargetReplicationResyncStatus) (opts : ResyncOpts) :
    targetOf (inc_stats now delta opts s) opts.bucket opts.arn =
      { targetOf s opts.bucket opts.arn with
          object := delta.object
          replicated_count :=
            wrapI64 ((targetOf s opts.bucket opts.arn).replicated_count + delta.replicated_count)
          replicated_size :=
            wrapI64 ((targetOf s opts.bucket opts.arn).replicated_size + delta.replicated_size)
          failed_count :=
            wrapI64 ((targetOf s opts.bucket opts.arn).failed_count + delta.failed_count)
          failed_size :=
            wrapI64 ((targetOf s opts.bucket opts.arn).failed_size + delta.failed_size)
          last_update := some now } := by
  have hid : ({ BucketReplicationResyncStatus.new with id := 0 }) =
      BucketReplicationResyncStatus.new := rfl
  simp only [targetOf, inc_stats, incTargetState, hid, mapGet_mapSet_self, Option.getD_some]

/-- Claim C8 (amended): for every `inc_stats` call whose deltas are
nonnegative and whose updated counters stay within the representable
i64 range, each of the four counters of the (bucket, target) record is
non-decreasing and the record's `resync_id` is unchanged (so the
property holds within a single resync id for the in-range nonnegative
deltas the resync walk produces; the signed fields make it false for
negative deltas, and the wrap-around of the source `+=` makes it false
at overflow even for nonnegative ones); `inc_stats` performs no durable
write; and beginning a new resync id (modelled from the spec) resets
the four counters wholesale to zero. -/
theorem C8_amended_inc_stats (s : ResyncerState) (now : Nat)
    (delta : TargetReplicationResyncStatus) (opts : ResyncOpts)
    (h1 : 0 ≤ delta.replicated_count) (h2 : 0 ≤ delta.replicated_size)
    (h3 : 0 ≤ delta.failed_count) (h4 : 0 ≤ delta.failed_size)
    (h5 : i64InRange ((targetOf s opts.bucket opts.arn).replicated_count +
      delta.replicated_count))
    (h6 : i64InRange ((targetOf s opts.bucket opts.arn).replicated_size +
      delta.replicated_size))
    (h7 : i64InRange ((targetOf s opts.bucket opts.arn).failed_count +
      delta.failed_count))
    (h8 : i64InRange ((targetOf s opts.bucket opts.arn).failed_size +
      delta.failed_size)) :
    (targetOf s opts.bucket opts.arn).replicated_count ≤
      (targetOf (inc_stats now delta opts s) opts.bucket opts.arn).replicated_count ∧
    (targetOf s opts.bucket opts.arn).replicated_size ≤
      (targetOf (inc_stats now delta opts s) opts.bucket opts.arn).replicated_size ∧
    (targetOf s opts.bucket opts.arn).failed_count ≤
      (targetOf (inc_stats now delta opts s) opts.bucket opts.arn).failed_count ∧
    (targetOf s opts.bucket opts.arn).failed_size ≤
      (targetOf (inc_stats now delta opts s) opts.bucket opts.arn).failed_size ∧
    (targetOf (inc_stats now delta opts s) opts.bucket opts.arn).resync_id =
      (targetOf s opts.bucket opts.arn).resync_id ∧
    (inc_stats now delta opts s).disk = s.disk ∧
    (∀ (now2 : Nat) (rid : String) (rbd : Option Nat),
      (startResyncTarget now2 rid rbd).replicated_count = 0 ∧
      (startResyncTarget now2 rid rbd).replicated_size = 0 ∧
      (startResyncTarget now2 rid rbd).failed_count = 0 ∧
      (startResyncTarget now2 rid rbd).failed_size = 0 ∧
      (startResyncTarget now2 rid rbd).resync_id = rid) := by
  rw [targetOf_inc_stats]
  refine ⟨?_, ?_, ?_, ?_, rfl, rfl, fun now2 rid rbd => ⟨rfl, rfl, rfl, rfl, rfl⟩⟩
  · show (targetOf s opts.bucket opts.arn).replicated_count ≤
      wrapI64 ((targetOf s opts.bucket opts.arn).replicated_count + delta.replicated_count)
    rw [wrapI64_eq_self _ h5]
    omega
  · show (targetOf s opts.bucket opts.arn).replicated_size ≤
      wrapI64 ((targetOf s opts.bucket opts.arn).replicated_size + delta.replicated_size)
    rw [wrapI64_eq_self _ h6]
    omega
  · show (targetOf s opts.bucket opts.arn).failed_count ≤
      wrapI64 ((targetOf s opts.bucket opts.arn).failed_count + delta.failed_count)
    rw [wrapI64_eq_self _ h7]
    omega
  · show (targetOf s opts.bucket opts.arn).failed_size ≤
      wrapI64 ((targetOf s opts.bucket opts.arn).failed_size + delta.failed_size)
    rw [wrapI64_eq_self _ h8]
    omega

/-- Witness for C8: the amended theorem applied to `c8State` with the
nonnegative in-range delta `c8Target` at time 9. -/
theorem C8_witness :
    ((0 : Int) ≤ c8Target.replicated_count ∧ (0 : Int) ≤ c8Target.replicated_size ∧
      (0 : Int) ≤ c8Target.failed_count ∧ (0 : Int) ≤ c8Target.failed_size ∧
      i64InRange ((targetOf c8State optsB.bucket optsB.arn).replicated_count +
        c8Target.replicated_count) ∧
      i64InRange ((targetOf c8State optsB.bucket optsB.arn).replicated_size +
        c8Target.replicated_size) ∧
      i64InRange ((targetOf c8State optsB.bucket optsB.arn).failed_count +
        c8Target.failed_count) ∧
      i64InRange ((targetOf c8State optsB.bucket optsB.arn).failed_size +
        c8Target.failed_size)) ∧
    ((targetOf c8State optsB.bucket optsB.arn).replicated_count ≤
      (targetOf (inc_stats 9 c8Target optsB c8State) optsB.bucket optsB.arn).replicated_count ∧
    (targetOf c8State optsB.bucket optsB.arn).replicated_size ≤
      (targetOf (inc_stats 9 c8Target optsB c8State) optsB.bucket optsB.arn).replicated_size ∧
    (targetOf c8State optsB.bucket optsB.arn).failed_count ≤
      (targetOf (inc_stats 9 c8Target optsB c8State) optsB.bucket optsB.arn).failed_count ∧
    (targetOf c8State optsB.bucket optsB.arn).failed_size ≤
      (targetOf (inc_stats 9 c8Target optsB c8State) optsB.bucket optsB.arn).failed_size ∧
    (targetOf (inc_stats 9 c8Target optsB c8State) optsB.bucket optsB.arn).resync_id =
      (targetOf c8State optsB.bucket optsB.arn).resync_id ∧
    (inc_stats 9 c8Target optsB c8State).disk = c8State.disk ∧
    (∀ (now2 : Nat) (rid : String) (rbd : Option Nat),
      (startResyncTarget now2 rid rbd).replicated_count = 0 ∧
      (startResyncTarget now2 rid rbd).replicated_size = 0 ∧
      (startResyncTarget now2 rid rbd).failed_count = 0 ∧
      (startResyncTarget now2 rid rbd).failed_size = 0 ∧
      (startResyncTarget now2 rid rbd).resync_id = rid)) :=
  ⟨⟨by decide, by decide, by decide, by decide, by decide, by decide, by decide, by decide⟩,
    C8_amended_inc_stats c8State 9 c8Target optsB (by decide) (by decide) (by decide) (by decide)
      (by decide) (by decide) (by decide) (by decide)⟩
